import Mathlib

/-!
Shallow embedding of the resilient-dataset-artifact-upload backend
(src/backend/src of the repository), covering the parts exercised by the
chunk-upload claims: the chunk service (storeChunk, getChunkIndices,
getMissingChunks, reassembleChunks), the upload service (getUploadSession,
updateUploadStatus, failUpload, completeUpload, isUploadExpired), the
validation service (validateFileType, validateFileSize, validateChecksum,
validateJsonSchema, validateFile) and the upload controller (uploadChunk,
completeUpload).

Modelling conventions:
- byte payloads are `List Nat`;
- the Redis chunk-metadata keyspace (keys of the shape chunk:uploadId:index,
  see src/backend/src/config/redis.ts) is modelled structurally as an
  association list keyed by the pair (uploadId, index); upload ids produced
  by the service are upl_<hex> and contain no colon, so the structured keys
  are in bijection with the string keys;
- the local filesystem is an association list from path strings to byte
  lists, with write-as-prepend (a later write to the same path shadows the
  earlier one, mirroring fs.writeFile overwrite semantics);
- the PostgreSQL uploads table together with its write-invalidated Redis
  session cache is modelled as a single association list keyed by upload_id
  (the cache is deleted on every updateUploadStatus, so on the modelled
  request paths the two never diverge);
- the development-mode configuration is modelled (useS3 = false), so the
  best-effort S3 mirror writes in chunkService.ts are not represented; the
  S3 key helpers getChunkPath / getFinalFilePath from the storage
  configuration are embedded as plain functions;
- wall-clock instants (new Date()) are `Nat` parameters called `now`;
  timestamps only ever flow into uploadedAt / updatedAt fields or into
  comparisons written in the source;
- sha256 hashing and JSON / JSONL parsing are platform primitives; the
  embedding is parametrised over them by the `ExtHooks` structure;
- fire-and-forget work after the completion response (AI hook, asynchronous
  chunk cleanup) is not represented in the returned state, and the userId /
  metadata / createdAt session fields, which no modelled path reads, are
  omitted from the session record.
-/

/-! ### Basic data -/

abbrev Bytes := List Nat

/-- Association-list lookup used to model both Redis `get` and filesystem
reads (first match wins, so prepending models overwriting). -/
def alookup {κ β : Type} [DecidableEq κ] (k : κ) : List (κ × β) → Option β
  | [] => none
  | e :: rest => if e.1 = k then some e.2 else alookup k rest

/-- Node `path.join` restricted to the use made of it in the source
(concatenating non-empty segments); normalisation of leading ./ is not
modelled, paths are treated as opaque keys. -/
def pathJoin (a b : String) : String := a ++ "/" ++ b

/-- ASCII lower-casing (JS String.toLowerCase restricted to the ASCII
strings the validator compares), written structurally over the character
list so that concrete runs evaluate. -/
def lowerChar (c : Char) : Char :=
  if 65 ≤ c.toNat ∧ c.toNat ≤ 90 then Char.ofNat (c.toNat + 32) else c

def toLowerAscii (s : String) : String := List.asString (s.data.map lowerChar)

/-- JS String.endsWith, written structurally over the character lists. -/
def strEndsWith (s suffix : String) : Bool := suffix.data.isSuffixOf s.data

/-- Configuration subset read by the modelled code paths
(src/backend/src/config/index.ts, upload section). -/
structure Config where
  chunkSize : Nat
  maxFileSize : Nat
  tempDir : String
  finalDir : String
  expiryHours : Nat
  deriving DecidableEq, Repr

/-- The defaults from src/backend/src/config/index.ts. -/
def defaultConfig : Config :=
  { chunkSize := 1048576
    maxFileSize := 10737418240
    tempDir := "./uploads/temp"
    finalDir := "./uploads/final"
    expiryHours := 24 }

/-- src/backend/src/types/index.ts `UploadStatus`. -/
inductive UploadStatus
  | INIT
  | UPLOADING
  | ASSEMBLING
  | COMPLETED
  | FAILED
  deriving DecidableEq, Repr

/-- src/backend/src/types/index.ts `UploadSession` (userId, metadata and
createdAt omitted: no modelled path reads them). -/
structure UploadSession where
  uploadId : String
  fileName : String
  fileSize : Nat
  fileType : String
  checksum : Option String
  totalChunks : Nat
  status : UploadStatus
  filePath : Option String
  updatedAt : Nat
  expiresAt : Nat
  deriving DecidableEq, Repr

/-- src/backend/src/types/index.ts `ChunkMetadata` (the optional checksum
field is never written by the source). -/
structure ChunkMetadata where
  uploadId : String
  chunkIndex : Nat
  path : String
  size : Nat
  uploadedAt : Nat
  deriving DecidableEq, Repr

/-- src/backend/src/utils/errors.ts `AppError`; the only structured detail
the modelled paths attach is the missingChunks list. -/
structure AppError where
  message : String
  statusCode : Nat
  code : String
  missingChunks : Option (List Nat)
  deriving DecidableEq, Repr

/-- Request outcomes (`Except` of an error or a response body) need
decidable equality so concrete scenarios can be evaluated. -/
instance {ε α : Type} [DecidableEq ε] [DecidableEq α] : DecidableEq (Except ε α) :=
  fun x y =>
    match x, y with
    | .ok a, .ok b =>
        if h : a = b then .isTrue (by rw [h]) else .isFalse (by simp [h])
    | .error a, .error b =>
        if h : a = b then .isTrue (by rw [h]) else .isFalse (by simp [h])
    | .ok _, .error _ => .isFalse (by simp)
    | .error _, .ok _ => .isFalse (by simp)

/-- Result record returned by `ChunkService.storeChunk`. -/
structure StoreChunkResult where
  alreadyExists : Bool
  size : Nat
  deriving DecidableEq, Repr

/-- src/backend/src/types/index.ts `ValidationResult`. -/
structure ValidationResult where
  isValid : Bool
  errors : List String
  warnings : List String
  deriving DecidableEq, Repr

/-- Platform primitives the validation service calls out to: sha256 hex
digesting (crypto) and JSON / JSONL parse success. The embedding is
parametrised over them. -/
structure ExtHooks where
  sha256hex : Bytes → String
  jsonValid : Bytes → Bool
  jsonlValid : Bytes → Bool

/-- The chunk-side mutable state: the Redis chunk-metadata keyspace and the
local filesystem. -/
structure ChunkState where
  redisChunks : List ((String × Nat) × ChunkMetadata)
  files : List (String × Bytes)
  deriving DecidableEq, Repr

def emptyChunkState : ChunkState := { redisChunks := [], files := [] }

/-- The session store (uploads table, cache collapsed in). -/
structure SessionStore where
  rows : List (String × UploadSession)
  deriving DecidableEq, Repr

/-! ### Object-store key helpers (src/unnamed/part_000, storage config) -/

/-- `getChunkPath` from the storage configuration:
temp-chunks/uploadId/chunk_index. -/
def getChunkPath (uploadId : String) (chunkIndex : Nat) : String :=
  "temp-chunks/" ++ uploadId ++ "/chunk_" ++ Nat.repr chunkIndex

/-- `getFinalFilePath` from the storage configuration:
datasets/uploadId/uploadId_fileName. -/
def getFinalFilePath (uploadId : String) (fileName : String) : String :=
  "datasets/" ++ uploadId ++ "/" ++ uploadId ++ "_" ++ fileName

/-- Local chunk file path used by storeChunk:
path.join(path.join(config.upload.tempDir, uploadId), chunk_index). -/
def chunkLocalPath (cfg : Config) (uploadId : String) (chunkIndex : Nat) : String :=
  pathJoin (pathJoin cfg.tempDir uploadId) ("chunk_" ++ Nat.repr chunkIndex)

/-! ### Chunk service (src/backend/src/services/chunkService.ts) -/

/-- `ChunkService.storeChunk` (lines 28-83): if metadata for the key is
already in Redis, return alreadyExists with the recorded size and change
nothing; otherwise write the payload to the temp chunk file, record
metadata whose size is the payload length, and return a fresh store. -/
def ChunkService.storeChunk (cfg : Config) (st : ChunkState) (uploadId : String)
    (chunkIndex : Nat) (data : Bytes) (now : Nat) : ChunkState × StoreChunkResult :=
  match alookup (uploadId, chunkIndex) st.redisChunks with
  | some metadata => (st, { alreadyExists := true, size := metadata.size })
  | none =>
      let chunkPath := chunkLocalPath cfg uploadId chunkIndex
      let metadata : ChunkMetadata :=
        { uploadId := uploadId
          chunkIndex := chunkIndex
          path := chunkPath
          size := data.length
          uploadedAt := now }
      ({ files := (chunkPath, data) :: st.files
         redisChunks := ((uploadId, chunkIndex), metadata) :: st.redisChunks },
       { alreadyExists := false, size := data.length })

/-- `ChunkService.getChunkIndices` (lines 102-113): the distinct indices
recorded for the upload, sorted ascending (Redis KEYS returns the distinct
matching keys; the regex extracts the trailing index). -/
def ChunkService.getChunkIndices (st : ChunkState) (uploadId : String) : List Nat :=
  ((st.redisChunks.filterMap fun e =>
      if e.1.1 = uploadId then some e.1.2 else none).dedup).insertionSort (· ≤ ·)

/-- `ChunkService.getMissingChunks` (lines 118-130). -/
def ChunkService.getMissingChunks (st : ChunkState) (uploadId : String)
    (totalChunks : Nat) : List Nat :=
  (List.range totalChunks).filter
    (fun i => decide (i ∉ ChunkService.getChunkIndices st uploadId))

/-- `ChunkService.getChunkCount` (lines 260-263). -/
def ChunkService.getChunkCount (st : ChunkState) (uploadId : String) : Nat :=
  (ChunkService.getChunkIndices st uploadId).length

/-- The read-and-concatenate loop of `reassembleChunks` (lines 159-185):
`ChunkService.readChunks st uploadId n` is the concatenation, in strictly
ascending index order, of chunks 0..n-1, failing like the source when a
chunk's metadata or file is missing. -/
def ChunkService.readChunks (st : ChunkState) (uploadId : String) :
    Nat → Except AppError Bytes
  | 0 => .ok []
  | n + 1 =>
      match ChunkService.readChunks st uploadId n with
      | .error e => .error e
      | .ok buf =>
          match alookup (uploadId, n) st.redisChunks with
          | none =>
              .error { message := "Chunk " ++ Nat.repr n ++ " not found"
                       statusCode := 404, code := "NOT_FOUND", missingChunks := none }
          | some metadata =>
              match alookup metadata.path st.files with
              | none =>
                  .error { message := "read failure", statusCode := 500
                           code := "INTERNAL_ERROR", missingChunks := none }
              | some chunkData => .ok (buf ++ chunkData)

/-- `ChunkService.reassembleChunks` (lines 135-219): refuse with
MISSING_CHUNKS when the recorded index count differs from totalChunks,
otherwise concatenate chunks 0..totalChunks-1 in ascending order into
finalDir/uploadId/fileName and return that path. -/
def ChunkService.reassembleChunks (cfg : Config) (st : ChunkState) (uploadId : String)
    (fileName : String) (totalChunks : Nat) : Except AppError (ChunkState × String) :=
  let chunkIndices := ChunkService.getChunkIndices st uploadId
  if chunkIndices.length ≠ totalChunks then
    .error { message := "Cannot reassemble: missing chunks"
             statusCode := 400
             code := "MISSING_CHUNKS"
             missingChunks := some (ChunkService.getMissingChunks st uploadId totalChunks) }
  else
    let finalFilePath := pathJoin (pathJoin cfg.finalDir uploadId) fileName
    match ChunkService.readChunks st uploadId totalChunks with
    | .error e => .error e
    | .ok buf =>
        .ok ({ st with files := (finalFilePath, buf) :: st.files }, finalFilePath)

/-! ### Upload service (src/backend/src/services/uploadService.ts) -/

/-- `UploadService.getUploadSession` (lines 117-157): cache or database
lookup; NotFoundError when the row is absent. -/
def UploadService.getUploadSession (ss : SessionStore) (uploadId : String) :
    Except AppError UploadSession :=
  match alookup uploadId ss.rows with
  | some session => .ok session
  | none =>
      .error { message := "Upload session " ++ uploadId ++ " not found"
               statusCode := 404, code := "NOT_FOUND", missingChunks := none }

/-- `UploadService.updateUploadStatus` (lines 183-208): unconditionally set
the requested status (and file_path when one is supplied) on the matching
row, stamping updated_at; there is no state-machine check of any kind. -/
def UploadService.updateUploadStatus (ss : SessionStore) (uploadId : String)
    (status : UploadStatus) (filePath : Option String) (now : Nat) : SessionStore :=
  { rows := ss.rows.map fun e =>
      if e.1 = uploadId then
        (e.1, { e.2 with
                  status := status
                  updatedAt := now
                  filePath := filePath.or e.2.filePath })
      else e }

/-- `UploadService.completeUpload` (lines 213-215). -/
def UploadService.completeUpload (ss : SessionStore) (uploadId : String)
    (filePath : String) (now : Nat) : SessionStore :=
  UploadService.updateUploadStatus ss uploadId UploadStatus.COMPLETED (some filePath) now

/-- `UploadService.failUpload` (lines 220-222). -/
def UploadService.failUpload (ss : SessionStore) (uploadId : String) (now : Nat) :
    SessionStore :=
  UploadService.updateUploadStatus ss uploadId UploadStatus.FAILED none now

/-- `UploadService.isUploadExpired` (lines 227-230); the source defines it
but no request path ever calls it. -/
def UploadService.isUploadExpired (ss : SessionStore) (uploadId : String) (now : Nat) :
    Except AppError Bool :=
  match UploadService.getUploadSession ss uploadId with
  | .error e => .error e
  | .ok session => .ok (decide (session.expiresAt < now))

/-- `totalChunks` as computed by `UploadService.initializeUpload` (line 44):
Math.ceil(fileSize / chunkSize), i.e. ceiling division on naturals. -/
def totalChunksFor (fileSize chunkSize : Nat) : Nat :=
  (fileSize + chunkSize - 1) / chunkSize

/-! ### Validation service (src/unnamed/part_000, ValidationService) -/

def ValidationService.allowedMimeTypes : List String :=
  ["application/json", "application/jsonl", "text/json", "text/csv",
   "text/plain", "application/octet-stream"]

def ValidationService.allowedExtensions : List String :=
  [".json", ".jsonl", ".csv", ".txt", ".bin", ".dat"]

/-- Node `path.extname`: the substring of the basename from its last dot,
or the empty string when the basename has no dot after its first
character. -/
def extname (fileName : String) : String :=
  let base := (fileName.data.reverse.takeWhile (fun c => c != '/')).reverse
  let tailLen := (base.reverse.takeWhile (fun c => c != '.')).length
  if tailLen + 2 ≤ base.length then
    List.asString ((base.reverse.take (tailLen + 1)).reverse)
  else
    ""

/-- `ValidationService.validateFileType`: both the lowercased MIME type and
the lowercased extension must be on their allow-lists; failures are
aggregated, MIME error recorded before the extension error. -/
def ValidationService.validateFileType (fileType : String) (fileName : String) :
    ValidationResult :=
  let errors :=
    (if ValidationService.allowedMimeTypes.contains (toLowerAscii fileType) then []
     else ["File type " ++ fileType ++ " is not allowed"]) ++
    (if ValidationService.allowedExtensions.contains (toLowerAscii (extname fileName))
     then [] else ["File extension " ++ extname fileName ++ " is not allowed"])
  { isValid := errors.isEmpty, errors := errors, warnings := [] }

/-- `ValidationService.validateFileSize`. -/
def ValidationService.validateFileSize (fileSize maxSize : Nat) : ValidationResult :=
  if fileSize = 0 then
    { isValid := false, errors := ["File size must be greater than 0"], warnings := [] }
  else if maxSize < fileSize then
    { isValid := false, errors := ["File size exceeds maximum allowed size"], warnings := [] }
  else
    { isValid := true, errors := [], warnings := [] }

/-- `ValidationService.calculateChecksum`: sha256:<hex of the file bytes>. -/
def ValidationService.calculateChecksum (hx : ExtHooks) (data : Bytes) : String :=
  "sha256:" ++ hx.sha256hex data

/-- `ValidationService.validateChecksum`: skipped with a warning when no
expected checksum was supplied, string comparison of
sha256:<hex> against the expectation otherwise; a failed file read is
caught and reported as invalid. -/
def ValidationService.validateChecksum (hx : ExtHooks) (st : ChunkState) (filePath : String)
    (expectedChecksum : Option String) : ValidationResult :=
  match expectedChecksum with
  | none =>
      { isValid := true, errors := [], warnings := ["No checksum provided for validation"] }
  | some expected =>
      match alookup filePath st.files with
      | none =>
          { isValid := false, errors := ["Failed to validate checksum"], warnings := [] }
      | some data =>
          if ValidationService.calculateChecksum hx data ≠ expected then
            { isValid := false, errors := ["Checksum mismatch"], warnings := [] }
          else
            { isValid := true, errors := [], warnings := [] }

/-- `ValidationService.validateJsonSchema`: .json must parse as JSON,
.jsonl line errors are aggregated (collapsed here to the parametrised
verdict), other extensions only need a readable file. -/
def ValidationService.validateJsonSchema (hx : ExtHooks) (st : ChunkState)
    (filePath : String) : ValidationResult :=
  match alookup filePath st.files with
  | none =>
      { isValid := false, errors := ["Failed to validate schema"], warnings := [] }
  | some data =>
      if toLowerAscii (extname filePath) = ".json" then
        if hx.jsonValid data then
          { isValid := true, errors := [], warnings := [] }
        else
          { isValid := false, errors := ["Invalid JSON"], warnings := [] }
      else if toLowerAscii (extname filePath) = ".jsonl" then
        if hx.jsonlValid data then
          { isValid := true, errors := [], warnings := [] }
        else
          { isValid := false, errors := ["Invalid JSONL"], warnings := [] }
      else
        { isValid := true, errors := [], warnings := [] }

/-- `ValidationService.validateFile`: aggregate type, size, optional
checksum and (for .json / .jsonl names) schema errors. -/
def ValidationService.validateFile (hx : ExtHooks) (st : ChunkState) (filePath : String)
    (fileType : String) (fileName : String) (fileSize maxSize : Nat)
    (expectedChecksum : Option String) : ValidationResult :=
  let errors :=
    (ValidationService.validateFileType fileType fileName).errors ++
    (ValidationService.validateFileSize fileSize maxSize).errors ++
    (match expectedChecksum with
     | some _ =>
         (ValidationService.validateChecksum hx st filePath expectedChecksum).errors
     | none => []) ++
    (if strEndsWith fileName ".json" || strEndsWith fileName ".jsonl" then
       (ValidationService.validateJsonSchema hx st filePath).errors
     else [])
  { isValid := errors.isEmpty, errors := errors, warnings := [] }

/-! ### Upload controller (src/backend/src/controllers/uploadController.ts) -/

/-- Response body of POST /api/upload/chunk (percentage field omitted:
floating point). -/
structure ChunkUploadResponse where
  chunkIndex : Nat
  status : String
  uploaded : Nat
  total : Nat
  deriving DecidableEq, Repr

/-- Response body of POST /api/upload/complete (AI pipeline fields omitted:
fire-and-forget hook). -/
structure CompleteResponse where
  uploadId : String
  status : String
  filePath : String
  deriving DecidableEq, Repr

/-- `UploadController.uploadChunk` (lines 73-133): load the session (404
when absent), range-check the index, store the chunk, request
INIT to UPLOADING when the session was loaded in INIT (regardless of
whether the chunk was fresh or already present), then report progress.
No expiry, terminal-status or payload-length check appears anywhere on
this path. -/
def UploadController.uploadChunk (cfg : Config) (ss : SessionStore) (cs : ChunkState)
    (uploadId : String) (chunkIndex : Nat) (data : Bytes) (now : Nat) :
    SessionStore × ChunkState × Except AppError ChunkUploadResponse :=
  match UploadService.getUploadSession ss uploadId with
  | .error e => (ss, cs, .error e)
  | .ok session =>
      if session.totalChunks ≤ chunkIndex then
        (ss, cs,
         .error { message := "Invalid chunk index", statusCode := 400
                  code := "VALIDATION_ERROR", missingChunks := none })
      else
        let stored := ChunkService.storeChunk cfg cs uploadId chunkIndex data now
        let ss' :=
          if session.status = UploadStatus.INIT then
            UploadService.updateUploadStatus ss uploadId UploadStatus.UPLOADING none now
          else ss
        let uploadedChunks := ChunkService.getChunkCount stored.1 uploadId
        (ss', stored.1,
         .ok { chunkIndex := chunkIndex
               status := if stored.2.alreadyExists then "already_uploaded" else "uploaded"
               uploaded := uploadedChunks
               total := session.totalChunks })

/-- `UploadController.completeUpload` (lines 153-227): load the session,
unconditionally move it to ASSEMBLING, reassemble (marking the session
FAILED and rethrowing on any reassembly error), validate the assembled
file (marking the session FAILED and raising VALIDATION_ERROR when
invalid), then record COMPLETED with the final path. Nothing on this path
reads expires_at or checks the previous status. -/
def UploadController.completeUpload (cfg : Config) (hx : ExtHooks) (ss : SessionStore)
    (cs : ChunkState) (uploadId : String) (now : Nat) :
    SessionStore × ChunkState × Except AppError CompleteResponse :=
  match UploadService.getUploadSession ss uploadId with
  | .error e => (ss, cs, .error e)
  | .ok session =>
      let ss₁ := UploadService.updateUploadStatus ss uploadId UploadStatus.ASSEMBLING none now
      match ChunkService.reassembleChunks cfg cs uploadId session.fileName
          session.totalChunks with
      | .error e => (UploadService.failUpload ss₁ uploadId now, cs, .error e)
      | .ok (cs₁, finalFilePath) =>
          let validation := ValidationService.validateFile hx cs₁ finalFilePath
            session.fileType session.fileName session.fileSize cfg.maxFileSize
            session.checksum
          if validation.isValid then
            (UploadService.completeUpload ss₁ uploadId finalFilePath now, cs₁,
             .ok { uploadId := uploadId, status := "completed", filePath := finalFilePath })
          else
            (UploadService.failUpload ss₁ uploadId now, cs₁,
             .error { message := "Validation failed", statusCode := 400
                      code := "VALIDATION_ERROR", missingChunks := none })

/-! ### Derived scenario operators (used to state the claims) -/

/-- Repeated `storeChunk` calls with one fixed (uploadId, index, payload),
at the given sequence of call instants; returns the final state and the
per-call results. -/
def ChunkService.storeChunkSeq (cfg : Config) (st : ChunkState) (uploadId : String)
    (chunkIndex : Nat) (data : Bytes) : List Nat → ChunkState × List StoreChunkResult
  | [] => (st, [])
  | now :: rest =>
      let r := ChunkService.storeChunk cfg st uploadId chunkIndex data now
      let r' := ChunkService.storeChunkSeq cfg r.1 uploadId chunkIndex data rest
      (r'.1, r.2 :: r'.2)

/-- The i-th chunk of blob B at chunk size C (the client-side split: the
last chunk may be short). -/
def chunkSlice (B : Bytes) (C i : Nat) : Bytes := (B.drop (i * C)).take C

/-- Upload, via `storeChunk`, the listed chunk indices of blob B split at
chunk size C, in the given order (duplicates allowed). -/
def uploadSeq (cfg : Config) (st : ChunkState) (uploadId : String) (B : Bytes)
    (C : Nat) : List Nat → ChunkState
  | [] => st
  | j :: rest =>
      uploadSeq cfg
        (ChunkService.storeChunk cfg st uploadId j (chunkSlice B C j) 0).1
        uploadId B C rest

/-- Chunk j of the split of B at chunk size C is fully recorded in the
state, exactly as a time-0 `storeChunk` records it: metadata under the
(uploadId, j) key and the payload at the temp chunk path. -/
def chunkRecorded (cfg : Config) (st : ChunkState) (uploadId : String) (B : Bytes)
    (C j : Nat) : Prop :=
  alookup (uploadId, j) st.redisChunks =
    some { uploadId := uploadId, chunkIndex := j, path := chunkLocalPath cfg uploadId j
           size := (chunkSlice B C j).length, uploadedAt := 0 } ∧
  alookup (chunkLocalPath cfg uploadId j) st.files = some (chunkSlice B C j)

/-! ### Concrete fixtures used by witnesses and counterexamples -/

/-- Trivial instantiation of the platform hooks, used when a concrete run
must be evaluated. -/
def hxTriv : ExtHooks :=
  { sha256hex := fun _ => "aaa", jsonValid := fun _ => true, jsonlValid := fun _ => true }

/-- A 2-chunk session in UPLOADING (expired at instant 10). -/
def sessU : UploadSession :=
  { uploadId := "u1", fileName := "a.bin", fileSize := 5
    fileType := "application/octet-stream", checksum := none, totalChunks := 2
    status := UploadStatus.UPLOADING, filePath := none, updatedAt := 0, expiresAt := 10 }

/-- The same session still in INIT. -/
def sessI : UploadSession := { sessU with status := UploadStatus.INIT }

/-- The same session in the terminal state COMPLETED. -/
def sessC : UploadSession :=
  { sessU with status := UploadStatus.COMPLETED, filePath := some "p" }

/-- A 3-chunk session in UPLOADING. -/
def sess3 : UploadSession :=
  { uploadId := "u1", fileName := "a.bin", fileSize := 3
    fileType := "application/octet-stream", checksum := none, totalChunks := 3
    status := UploadStatus.UPLOADING, filePath := none, updatedAt := 0, expiresAt := 10 }

/-- A 1-chunk UPLOADING session carrying an expected digest. -/
def sessD : UploadSession :=
  { uploadId := "u1", fileName := "a.bin", fileSize := 1
    fileType := "application/octet-stream", checksum := some "sha256:feed"
    totalChunks := 1, status := UploadStatus.UPLOADING, filePath := none
    updatedAt := 0, expiresAt := 10 }

/-- A 1-chunk UPLOADING session with no expected digest (expired at
instant 10). -/
def sessE : UploadSession :=
  { uploadId := "u1", fileName := "a.bin", fileSize := 1
    fileType := "application/octet-stream", checksum := none, totalChunks := 1
    status := UploadStatus.UPLOADING, filePath := none, updatedAt := 0, expiresAt := 10 }

/-- Chunk state holding the single chunk 0 = [7] of session u1, produced by
the service itself. -/
def csOne : ChunkState :=
  (ChunkService.storeChunk defaultConfig emptyChunkState "u1" 0 [7] 0).1

/-- Chunk state holding chunks 0 and 2 (of 3) of session u1. -/
def csGap : ChunkState :=
  (ChunkService.storeChunk defaultConfig
    (ChunkService.storeChunk defaultConfig emptyChunkState "u1" 0 [1] 0).1 "u1" 2 [3] 0).1

/-! ### Helper lemmas: decimal representations are injective -/

def decDigit (c : Char) : Nat := c.toNat - 48

def digitsVal (l : List Char) : Nat := l.foldl (fun acc c => 10 * acc + decDigit c) 0

theorem toDigitsCore_append (b : Nat) (f : Nat) :
    ∀ (n : Nat) (ds : List Char),
      Nat.toDigitsCore b f n ds = Nat.toDigitsCore b f n [] ++ ds := by
  induction f with
  | zero => intro n ds; simp [Nat.toDigitsCore]
  | succ f ih =>
      intro n ds
      simp only [Nat.toDigitsCore]
      by_cases h : n / b = 0
      · simp [h]
      · simp only [h, if_false]
        rw [ih (n / b) (Nat.digitChar (n % b) :: ds), ih (n / b) [Nat.digitChar (n % b)]]
        simp

theorem toDigitsCore_fuelIrrel :
    ∀ (n f₁ f₂ : Nat), n < f₁ → n < f₂ →
      Nat.toDigitsCore 10 f₁ n [] = Nat.toDigitsCore 10 f₂ n [] := by
  intro n
  induction n using Nat.strong_induction_on with
  | _ n ih =>
      intro f₁ f₂ h₁ h₂
      match f₁, f₂ with
      | f₁ + 1, f₂ + 1 =>
        simp only [Nat.toDigitsCore]
        by_cases h : n / 10 = 0
        · simp [h]
        · simp only [h, if_false]
          have hlt : n / 10 < n := Nat.div_lt_self (Nat.pos_of_ne_zero (by
            intro hn; apply h; simp [hn])) (by norm_num)
          rw [toDigitsCore_append 10 f₁ (n / 10), toDigitsCore_append 10 f₂ (n / 10)]
          rw [ih (n / 10) hlt f₁ f₂ (by omega) (by omega)]

theorem toDigitsCore_eq_toDigits (f n : Nat) (h : n < f) :
    Nat.toDigitsCore 10 f n [] = Nat.toDigits 10 n := by
  unfold Nat.toDigits
  exact toDigitsCore_fuelIrrel n f (n + 1) h (Nat.lt_succ_self n)

theorem decDigit_digitChar : ∀ k : Nat, k < 10 → decDigit (Nat.digitChar k) = k := by decide

theorem digitsVal_toDigits : ∀ n : Nat, digitsVal (Nat.toDigits 10 n) = n := by
  intro n
  induction n using Nat.strong_induction_on with
  | _ n ih =>
      unfold Nat.toDigits
      simp only [Nat.toDigitsCore]
      by_cases h : n / 10 = 0
      · have hn : n < 10 := by omega
        have hmod : n % 10 = n := Nat.mod_eq_of_lt hn
        simp [h, digitsVal, hmod, decDigit_digitChar n hn]
      · simp only [h, if_false]
        have hlt : n / 10 < n := Nat.div_lt_self (by omega) (by norm_num)
        rw [toDigitsCore_append 10 n (n / 10), toDigitsCore_eq_toDigits n (n / 10) hlt]
        have hval : digitsVal (Nat.toDigits 10 (n / 10) ++ [Nat.digitChar (n % 10)]) =
            10 * digitsVal (Nat.toDigits 10 (n / 10)) + decDigit (Nat.digitChar (n % 10)) := by
          simp [digitsVal, List.foldl_append]
        rw [hval, ih (n / 10) hlt, decDigit_digitChar (n % 10) (Nat.mod_lt n (by norm_num))]
        omega

theorem natRepr_injective : Function.Injective Nat.repr := by
  intro m n h
  have hd : Nat.toDigits 10 m = Nat.toDigits 10 n := by
    have := congrArg String.data h
    simpa [Nat.repr, List.asString] using this
  have := congrArg digitsVal hd
  simpa [digitsVal_toDigits] using this

theorem chunkLocalPath_inj (cfg : Config) (s : String) {j k : Nat}
    (h : chunkLocalPath cfg s j = chunkLocalPath cfg s k) : j = k := by
  apply natRepr_injective
  have hd := congrArg String.data h
  simp only [chunkLocalPath, pathJoin, String.data_append] at hd
  have h₁ := List.append_cancel_left hd
  have h₂ := List.append_cancel_left h₁
  exact String.ext h₂

/-! ### Helper lemmas: association-list lookups -/

theorem alookup_cons_self {κ β : Type} [DecidableEq κ] (k : κ) (v : β)
    (l : List (κ × β)) : alookup k ((k, v) :: l) = some v := by
  simp [alookup]

theorem alookup_cons_ne {κ β : Type} [DecidableEq κ] {k k' : κ} (v : β)
    (l : List (κ × β)) (h : k' ≠ k) : alookup k ((k', v) :: l) = alookup k l := by
  simp [alookup, h]

theorem alookup_isSome_iff {κ β : Type} [DecidableEq κ] (k : κ) :
    ∀ l : List (κ × β), (alookup k l).isSome = true ↔ ∃ v, (k, v) ∈ l := by
  intro l
  induction l with
  | nil => simp [alookup]
  | cons e rest ih =>
      obtain ⟨k', v'⟩ := e
      by_cases h : k' = k
      · subst h
        simp only [alookup, if_pos rfl, Option.isSome_some]
        constructor
        · intro _; exact ⟨v', List.mem_cons_self _ _⟩
        · intro _; rfl
      · simp only [alookup, if_neg h]
        rw [ih]
        constructor
        · rintro ⟨v, hv⟩; exact ⟨v, List.mem_cons_of_mem _ hv⟩
        · rintro ⟨v, hv⟩
          rcases List.mem_cons.mp hv with heq | hmem
          · exact absurd (congrArg Prod.fst heq).symm h
          · exact ⟨v, hmem⟩

/-! ### Helper lemmas: the chunk index -/

theorem mem_getChunkIndices (st : ChunkState) (s : String) (i : Nat) :
    i ∈ ChunkService.getChunkIndices st s ↔
      (alookup (s, i) st.redisChunks).isSome = true := by
  unfold ChunkService.getChunkIndices
  rw [(List.perm_insertionSort _ _).mem_iff, List.mem_dedup, List.mem_filterMap,
    alookup_isSome_iff]
  constructor
  · rintro ⟨e, hmem, hf⟩
    by_cases h : e.1.1 = s
    · rw [if_pos h] at hf
      refine ⟨e.2, ?_⟩
      have : e.1 = (s, i) := Prod.ext h (Option.some.inj hf)
      have he : e = ((s, i), e.2) := Prod.ext this rfl
      rwa [he] at hmem
    · rw [if_neg h] at hf; cases hf
  · rintro ⟨md, hmem⟩
    exact ⟨((s, i), md), hmem, by simp⟩

theorem nodup_getChunkIndices (st : ChunkState) (s : String) :
    (ChunkService.getChunkIndices st s).Nodup := by
  unfold ChunkService.getChunkIndices
  exact (List.perm_insertionSort _ _).nodup_iff.mpr (List.nodup_dedup _)

theorem mem_getMissingChunks (st : ChunkState) (s : String) (total i : Nat) :
    i ∈ ChunkService.getMissingChunks st s total ↔
      i < total ∧ i ∉ ChunkService.getChunkIndices st s := by
  unfold ChunkService.getMissingChunks
  rw [List.mem_filter, List.mem_range]
  simp

theorem sorted_getMissingChunks (st : ChunkState) (s : String) (total : Nat) :
    (ChunkService.getMissingChunks st s total).Sorted (· < ·) := by
  unfold ChunkService.getMissingChunks
  exact (List.pairwise_lt_range total).filter _

/-! ### Helper lemmas: storeChunk and its iterations -/

theorem storeChunk_present (cfg : Config) (st : ChunkState) (s : String) (i : Nat)
    (p : Bytes) (now : Nat) (md : ChunkMetadata)
    (h : alookup (s, i) st.redisChunks = some md) :
    ChunkService.storeChunk cfg st s i p now = (st, { alreadyExists := true, size := md.size }) := by
  unfold ChunkService.storeChunk
  rw [h]

theorem storeChunk_absent (cfg : Config) (st : ChunkState) (s : String) (i : Nat)
    (p : Bytes) (now : Nat) (h : alookup (s, i) st.redisChunks = none) :
    ChunkService.storeChunk cfg st s i p now =
      ({ files := (chunkLocalPath cfg s i, p) :: st.files
         redisChunks := ((s, i),
           { uploadId := s, chunkIndex := i, path := chunkLocalPath cfg s i
             size := p.length, uploadedAt := now }) :: st.redisChunks },
       { alreadyExists := false, size := p.length }) := by
  unfold ChunkService.storeChunk
  rw [h]

theorem storeChunkSeq_present (cfg : Config) (st : ChunkState) (s : String) (i : Nat)
    (p : Bytes) (md : ChunkMetadata) (h : alookup (s, i) st.redisChunks = some md) :
    ∀ ts : List Nat, ChunkService.storeChunkSeq cfg st s i p ts =
      (st, ts.map fun _ => { alreadyExists := true, size := md.size }) := by
  intro ts
  induction ts with
  | nil => rfl
  | cons t rest ih =>
      unfold ChunkService.storeChunkSeq
      rw [storeChunk_present cfg st s i p t md h]
      simp only [ih, List.map_cons]

/-! ### Helper lemmas: session store updates -/

theorem alookup_updateUploadStatus (ss : SessionStore) (u : String)
    (st' : UploadStatus) (fp : Option String) (now : Nat) (s : UploadSession)
    (h : alookup u ss.rows = some s) :
    alookup u (UploadService.updateUploadStatus ss u st' fp now).rows =
      some { s with status := st', updatedAt := now, filePath := fp.or s.filePath } := by
  unfold UploadService.updateUploadStatus
  obtain ⟨rows⟩ := ss
  simp only at h ⊢
  induction rows with
  | nil => simp [alookup] at h
  | cons e rest ih =>
      obtain ⟨k', v'⟩ := e
      by_cases hk : k' = u
      · subst hk
        rw [alookup_cons_self] at h
        obtain rfl : v' = s := Option.some.inj h
        simp only [List.map_cons, if_pos rfl]
        exact alookup_cons_self _ _ _
      · rw [alookup_cons_ne _ _ hk] at h
        simp only [List.map_cons, if_neg hk]
        rw [alookup_cons_ne _ _ hk]
        exact ih h

theorem alookup_updateUploadStatus_none (ss : SessionStore) (u : String)
    (st' : UploadStatus) (fp : Option String) (now : Nat)
    (h : alookup u ss.rows = none) :
    alookup u (UploadService.updateUploadStatus ss u st' fp now).rows = none := by
  unfold UploadService.updateUploadStatus
  obtain ⟨rows⟩ := ss
  simp only at h ⊢
  induction rows with
  | nil => simp [alookup]
  | cons e rest ih =>
      obtain ⟨k', v'⟩ := e
      by_cases hk : k' = u
      · subst hk; rw [alookup_cons_self] at h; cases h
      · rw [alookup_cons_ne _ _ hk] at h
        simp only [List.map_cons, if_neg hk]
        rw [alookup_cons_ne _ _ hk]
        exact ih h

/-! ### C1 -/

/-- C1: in any sequence of storeChunk calls with the same session, index and
byte-identical payload, started from a state where that chunk is not yet
recorded, at most one call (here: exactly the first) reports a fresh store,
its recorded size is the payload length, every subsequent call reports
AlreadyPresent carrying the recorded size (= the payload length), and no
call after the first success changes the state. -/
theorem storeChunk_idempotent (cfg : Config) (st₀ : ChunkState) (s : String)
    (i : Nat) (p : Bytes) (t : Nat) (ts : List Nat)
    (habs : alookup (s, i) st₀.redisChunks = none) :
    (ChunkService.storeChunk cfg st₀ s i p t).2 =
      { alreadyExists := false, size := p.length } ∧
    ((ChunkService.storeChunkSeq cfg st₀ s i p (t :: ts)).2.filter
        (fun r => !r.alreadyExists)).length = 1 ∧
    (∀ r ∈ (ChunkService.storeChunkSeq cfg st₀ s i p (t :: ts)).2.tail,
        r = { alreadyExists := true, size := p.length }) ∧
    (ChunkService.storeChunkSeq cfg st₀ s i p (t :: ts)).1 =
      (ChunkService.storeChunk cfg st₀ s i p t).1 := by
  have hstep := storeChunk_absent cfg st₀ s i p t habs
  have hlook : alookup (s, i) (ChunkService.storeChunk cfg st₀ s i p t).1.redisChunks =
      some { uploadId := s, chunkIndex := i, path := chunkLocalPath cfg s i
             size := p.length, uploadedAt := t } := by
    rw [hstep]
    exact alookup_cons_self _ _ _
  have hseq : ChunkService.storeChunkSeq cfg st₀ s i p (t :: ts) =
      ((ChunkService.storeChunk cfg st₀ s i p t).1,
        { alreadyExists := false, size := p.length } ::
          ts.map fun _ => { alreadyExists := true, size := p.length }) := by
    have hdef : ChunkService.storeChunkSeq cfg st₀ s i p (t :: ts) =
        ((ChunkService.storeChunkSeq cfg (ChunkService.storeChunk cfg st₀ s i p t).1
            s i p ts).1,
         (ChunkService.storeChunk cfg st₀ s i p t).2 ::
           (ChunkService.storeChunkSeq cfg (ChunkService.storeChunk cfg st₀ s i p t).1
             s i p ts).2) := rfl
    rw [hdef, storeChunkSeq_present cfg _ s i p _ hlook ts, hstep]
  refine ⟨by rw [hstep], ?_, ?_, ?_⟩
  · rw [hseq]
    simp [List.filter_map, Function.comp_def]
  · rw [hseq]
    intro r hr
    simp only [List.tail_cons, List.mem_map] at hr
    obtain ⟨_, _, rfl⟩ := hr
    rfl
  · rw [hseq]

/-- C1 witness: a concrete run of the store-twice scenario. -/
theorem storeChunk_idempotent_witness :
    ((ChunkService.storeChunkSeq defaultConfig emptyChunkState "u1" 0 [7, 8]
        [3, 4, 5]).2.filter (fun r => !r.alreadyExists)).length = 1 ∧
    (ChunkService.storeChunkSeq defaultConfig emptyChunkState "u1" 0 [7, 8]
        [3, 4, 5]).1 =
      (ChunkService.storeChunk defaultConfig emptyChunkState "u1" 0 [7, 8] 3).1 :=
  ⟨(storeChunk_idempotent defaultConfig emptyChunkState "u1" 0 [7, 8] 3 [4, 5] rfl).2.1,
   (storeChunk_idempotent defaultConfig emptyChunkState "u1" 0 [7, 8] 3 [4, 5] rfl).2.2.2⟩

/-! ### C2 helper lemmas -/

theorem uploadSeq_spec (cfg : Config) (s : String) (B : Bytes) (C : Nat) :
    ∀ (order : List Nat) (st : ChunkState),
      (∀ j, (alookup (s, j) st.redisChunks).isSome = true →
        chunkRecorded cfg st s B C j) →
      ((∀ j, (alookup (s, j) (uploadSeq cfg st s B C order).redisChunks).isSome = true ↔
          ((alookup (s, j) st.redisChunks).isSome = true ∨ j ∈ order)) ∧
       (∀ j, (alookup (s, j) (uploadSeq cfg st s B C order).redisChunks).isSome = true →
          chunkRecorded cfg (uploadSeq cfg st s B C order) s B C j)) := by
  intro order
  induction order with
  | nil =>
      intro st hinv
      exact ⟨fun j => by simp [uploadSeq], hinv⟩
  | cons k rest ih =>
      intro st hinv
      cases hk : alookup (s, k) st.redisChunks with
      | some md =>
          have hst : (ChunkService.storeChunk cfg st s k (chunkSlice B C k) 0).1 = st := by
            rw [storeChunk_present cfg st s k _ 0 md hk]
          have hdef : uploadSeq cfg st s B C (k :: rest) = uploadSeq cfg st s B C rest := by
            show uploadSeq cfg (ChunkService.storeChunk cfg st s k (chunkSlice B C k) 0).1
                s B C rest = uploadSeq cfg st s B C rest
            rw [hst]
          obtain ⟨hmem, hrec⟩ := ih st hinv
          rw [hdef]
          refine ⟨fun j => ?_, hrec⟩
          rw [hmem j]
          constructor
          · rintro (h | h)
            · exact Or.inl h
            · exact Or.inr (List.mem_cons_of_mem _ h)
          · rintro (h | h)
            · exact Or.inl h
            · rcases List.mem_cons.mp h with rfl | hmemr
              · exact Or.inl (by rw [hk]; rfl)
              · exact Or.inr hmemr
      | none =>
          have hstep := storeChunk_absent cfg st s k (chunkSlice B C k) 0 hk
          have hdef : uploadSeq cfg st s B C (k :: rest) =
              uploadSeq cfg (ChunkService.storeChunk cfg st s k (chunkSlice B C k) 0).1
                s B C rest := rfl
          set st₁ := (ChunkService.storeChunk cfg st s k (chunkSlice B C k) 0).1 with hst₁
          have hred : st₁.redisChunks =
              ((s, k), { uploadId := s, chunkIndex := k, path := chunkLocalPath cfg s k
                         size := (chunkSlice B C k).length, uploadedAt := 0 }) ::
                st.redisChunks := by
            rw [hst₁, hstep]
          have hfil : st₁.files = (chunkLocalPath cfg s k, chunkSlice B C k) :: st.files := by
            rw [hst₁, hstep]
          have hmem₁ : ∀ j, (alookup (s, j) st₁.redisChunks).isSome = true ↔
              (j = k ∨ (alookup (s, j) st.redisChunks).isSome = true) := by
            intro j
            by_cases hjk : j = k
            · subst hjk
              rw [hred, alookup_cons_self]
              simp
            · rw [hred, alookup_cons_ne _ _ (by simp; omega)]
              simp [hjk]
          have hinv₁ : ∀ j, (alookup (s, j) st₁.redisChunks).isSome = true →
              chunkRecorded cfg st₁ s B C j := by
            intro j hj
            by_cases hjk : j = k
            · subst hjk
              constructor
              · rw [hred]; exact alookup_cons_self _ _ _
              · rw [hfil]; exact alookup_cons_self _ _ _
            · have hjs : (alookup (s, j) st.redisChunks).isSome = true := by
                rcases (hmem₁ j).mp hj with h | h
                · exact absurd h hjk
                · exact h
              obtain ⟨hr, hf⟩ := hinv j hjs
              constructor
              · rw [hred, alookup_cons_ne _ _ (by simp; omega)]
                exact hr
              · rw [hfil, alookup_cons_ne _ _
                    (fun hpe => hjk (chunkLocalPath_inj cfg s hpe.symm))]
                exact hf
          obtain ⟨hmem, hrec⟩ := ih st₁ hinv₁
          rw [hdef]
          refine ⟨fun j => ?_, hrec⟩
          rw [hmem j, hmem₁ j]
          constructor
          · rintro ((rfl | h) | h)
            · exact Or.inr (List.mem_cons_self _ _)
            · exact Or.inl h
            · exact Or.inr (List.mem_cons_of_mem _ h)
          · rintro (h | h)
            · exact Or.inl (Or.inr h)
            · rcases List.mem_cons.mp h with rfl | hmemr
              · exact Or.inl (Or.inl rfl)
              · exact Or.inr hmemr

theorem readChunks_spec (cfg : Config) (st : ChunkState) (s : String) (B : Bytes)
    (C : Nat) : ∀ n, (∀ j, j < n → chunkRecorded cfg st s B C j) →
    ChunkService.readChunks st s n = .ok (B.take (n * C)) := by
  intro n
  induction n with
  | zero => intro _; simp [ChunkService.readChunks]
  | succ n ih =>
      intro h
      obtain ⟨hr, hf⟩ := h n (Nat.lt_succ_self n)
      have hprev := ih (fun j hj => h j (Nat.lt_succ_of_lt hj))
      simp only [ChunkService.readChunks, hprev, hr, hf]
      rw [Nat.succ_mul, List.take_add]
      rfl

theorem flatten_slices (B : Bytes) (C : Nat) :
    ∀ n, ((List.range n).map (chunkSlice B C)).flatten = B.take (n * C) := by
  intro n
  induction n with
  | zero => simp
  | succ n ih =>
      rw [List.range_succ, List.map_append, List.flatten_append]
      simp only [List.map_cons, List.map_nil, List.flatten_cons, List.flatten_nil, ih]
      rw [Nat.succ_mul, List.take_add, chunkSlice]
      simp

theorem le_totalChunksFor_mul (N C : Nat) (hC : 0 < C) :
    N ≤ totalChunksFor N C * C := by
  unfold totalChunksFor
  rcases Nat.eq_zero_or_pos N with rfl | hN
  · simp
  · have hq : (N + C - 1) / C = (N - 1) / C + 1 := by
      have he : N + C - 1 = (N - 1) + C := by omega
      rw [he, Nat.add_div_right _ hC]
    rw [hq, Nat.add_mul, Nat.one_mul]
    have hdm := Nat.div_add_mod (N - 1) C
    have hml : (N - 1) % C < C := Nat.mod_lt _ hC
    rw [Nat.mul_comm C ((N - 1) / C)] at hdm
    generalize hP : (N - 1) / C * C = P at hdm ⊢
    omega

/-! ### C2 -/

/-- C2: splitting a non-empty blob B into ceil(N/C) chunks of size C (last
possibly short), uploading the chunks in any order whatsoever (any
permutation, duplicates allowed) and then reassembling yields the final
object with exactly the bytes of B; moreover the read loop concatenates the
chunks in strict ascending index order 0..total-1 (its output is the
flattening of the slices listed in ascending order). -/
theorem reassemble_roundtrip (cfg : Config) (B : Bytes) (C : Nat) (s fileName : String)
    (order : List Nat) (hC : 0 < C) (hB : 0 < B.length)
    (hcover : ∀ j, j < totalChunksFor B.length C → j ∈ order)
    (hrange : ∀ j, j ∈ order → j < totalChunksFor B.length C) :
    ChunkService.readChunks (uploadSeq cfg emptyChunkState s B C order) s
        (totalChunksFor B.length C) =
      .ok ((List.range (totalChunksFor B.length C)).map (chunkSlice B C)).flatten ∧
    ∃ stF,
      ChunkService.reassembleChunks cfg (uploadSeq cfg emptyChunkState s B C order)
          s fileName (totalChunksFor B.length C) =
        .ok (stF, pathJoin (pathJoin cfg.finalDir s) fileName) ∧
      alookup (pathJoin (pathJoin cfg.finalDir s) fileName) stF.files = some B := by
  obtain ⟨hmem, hrec⟩ := uploadSeq_spec cfg s B C order emptyChunkState
    (by intro j hj; simp [emptyChunkState, alookup] at hj)
  have hmem' : ∀ j,
      (alookup (s, j) (uploadSeq cfg emptyChunkState s B C order).redisChunks).isSome =
        true ↔ j ∈ order := by
    intro j
    rw [hmem j]
    simp [emptyChunkState, alookup]
  have hrecT : ∀ j, j < totalChunksFor B.length C →
      chunkRecorded cfg (uploadSeq cfg emptyChunkState s B C order) s B C j := by
    intro j hj
    exact hrec j ((hmem' j).mpr (hcover j hj))
  have hread := readChunks_spec cfg (uploadSeq cfg emptyChunkState s B C order) s B C
    (totalChunksFor B.length C) hrecT
  have htake : B.take (totalChunksFor B.length C * C) = B :=
    List.take_of_length_le (le_totalChunksFor_mul B.length C hC)
  have hidx : ∀ j,
      j ∈ ChunkService.getChunkIndices (uploadSeq cfg emptyChunkState s B C order) s ↔
        j ∈ List.range (totalChunksFor B.length C) := by
    intro j
    rw [mem_getChunkIndices, hmem' j, List.mem_range]
    exact ⟨fun h => hrange j h, fun h => hcover j h⟩
  have hperm : (ChunkService.getChunkIndices
      (uploadSeq cfg emptyChunkState s B C order) s).Perm
        (List.range (totalChunksFor B.length C)) :=
    (List.perm_ext_iff_of_nodup (nodup_getChunkIndices _ _)
      (List.nodup_range _)).mpr hidx
  have hlen : (ChunkService.getChunkIndices
      (uploadSeq cfg emptyChunkState s B C order) s).length =
        totalChunksFor B.length C := by
    rw [hperm.length_eq, List.length_range]
  constructor
  · rw [hread, flatten_slices]
  · refine ⟨{ uploadSeq cfg emptyChunkState s B C order with
        files := (pathJoin (pathJoin cfg.finalDir s) fileName, B) ::
          (uploadSeq cfg emptyChunkState s B C order).files }, ?_, ?_⟩
    · simp only [ChunkService.reassembleChunks]
      rw [if_neg (by rw [hlen]; exact fun h => h rfl)]
      rw [hread, htake]
    · exact alookup_cons_self _ _ _

/-- C2 witness: the 5-byte blob [1,2,3,4,5] at chunk size 2, uploaded in the
order 2,0,1 with a duplicate of 0, reassembles to itself. -/
theorem reassemble_roundtrip_witness :
    ChunkService.readChunks
        (uploadSeq defaultConfig emptyChunkState "u1" [1, 2, 3, 4, 5] 2 [2, 0, 1, 0])
        "u1" (totalChunksFor (List.length [1, 2, 3, 4, 5]) 2) =
      .ok ((List.range (totalChunksFor (List.length [1, 2, 3, 4, 5]) 2)).map
        (chunkSlice [1, 2, 3, 4, 5] 2)).flatten :=
  (reassemble_roundtrip defaultConfig [1, 2, 3, 4, 5] 2 "u1" "a.bin" [2, 0, 1, 0]
    (by decide) (by decide) (by decide) (by decide)).1

/-! ### C3 -/

/-- C3 counterexample: updateUploadStatus applies the forbidden transition
COMPLETED to UPLOADING at a concrete store: the stored status changes and
no IllegalTransition failure occurs (the operation cannot fail at all),
contradicting the claim that illegal transition attempts fail without
changing the stored status. -/
theorem updateStatus_terminal_cex :
    (UploadService.updateUploadStatus { rows := [("u1", sessC)] } "u1"
        UploadStatus.UPLOADING none 5).rows =
      [("u1", { sessC with status := UploadStatus.UPLOADING, updatedAt := 5 })] := by
  decide

/-- C3 amended: session status updates are not validated at all.
updateUploadStatus records any requested status over any current status
(the terminal states included) and never fails; and complete does not
refuse sessions outside UPLOADING: the outcome of the completion request
is the same whatever status the session holds when it starts. -/
theorem updateStatus_unconditional (ss : SessionStore) (u : String)
    (stNew : UploadStatus) (fp : Option String) (now : Nat) (s : UploadSession)
    (h : alookup u ss.rows = some s) :
    (alookup u (UploadService.updateUploadStatus ss u stNew fp now).rows =
      some { s with status := stNew, updatedAt := now, filePath := fp.or s.filePath }) ∧
    (∀ (cfg : Config) (hx : ExtHooks) (cs : ChunkState) (st₁ st₂ : UploadStatus),
      (UploadController.completeUpload cfg hx
          (UploadService.updateUploadStatus ss u st₁ none now) cs u now).2.2 =
      (UploadController.completeUpload cfg hx
          (UploadService.updateUploadStatus ss u st₂ none now) cs u now).2.2) := by
  refine ⟨alookup_updateUploadStatus ss u stNew fp now s h, ?_⟩
  intro cfg hx cs st₁ st₂
  have h₁ := alookup_updateUploadStatus ss u st₁ none now s h
  have h₂ := alookup_updateUploadStatus ss u st₂ none now s h
  simp only [UploadController.completeUpload, UploadService.getUploadSession, h₁, h₂]
  cases hre : ChunkService.reassembleChunks cfg cs u s.fileName s.totalChunks with
  | error e => rfl
  | ok pr =>
      obtain ⟨cs₁, fp⟩ := pr
      dsimp only
      by_cases hv : (ValidationService.validateFile hx cs₁ fp s.fileType s.fileName
          s.fileSize cfg.maxFileSize s.checksum).isValid = true
      · rw [if_pos hv, if_pos hv]
      · rw [if_neg hv, if_neg hv]

/-- C3 witness: the unconditional-update law applied at a concrete store
(COMPLETED overwritten by INIT, an edge the state machine forbids twice
over). -/
theorem updateStatus_unconditional_witness :
    alookup "u1" (UploadService.updateUploadStatus { rows := [("u1", sessC)] } "u1"
        UploadStatus.INIT none 7).rows =
      some { sessC with
               status := UploadStatus.INIT
               updatedAt := 7
               filePath := Option.or none sessC.filePath } :=
  (updateStatus_unconditional { rows := [("u1", sessC)] } "u1" UploadStatus.INIT none 7
    sessC (by decide)).1

/-! ### C4 -/

/-- C4 counterexample: with only chunks 0 and 2 of a 3-chunk UPLOADING
session present, complete does fail with MISSING_CHUNKS listing [1], but
the session does not remain in UPLOADING and no rollback occurs: the
controller marks it FAILED. -/
theorem complete_missing_failed_cex :
    ((UploadController.completeUpload defaultConfig hxTriv
        { rows := [("u1", sess3)] } csGap "u1" 9).2.2 =
      .error { message := "Cannot reassemble: missing chunks"
               statusCode := 400
               code := "MISSING_CHUNKS"
               missingChunks := some [1] }) ∧
    alookup "u1" (UploadController.completeUpload defaultConfig hxTriv
        { rows := [("u1", sess3)] } csGap "u1" 9).1.rows =
      some { sess3 with status := UploadStatus.FAILED, updatedAt := 9 } := by
  exact ⟨by decide, by decide⟩

/-- C4 amended: for a session whose recorded chunk indices are in range but
incomplete, complete fails with MISSING_CHUNKS whose details enumerate
exactly the sorted missing indices, and the session is marked FAILED (the
ASSEMBLING transition is not rolled back to UPLOADING; the controller
calls failUpload on the reassembly error). -/
theorem complete_missing_chunks_failed (cfg : Config) (hx : ExtHooks)
    (ss : SessionStore) (cs : ChunkState) (u : String) (now : Nat)
    (s : UploadSession) (j : Nat) (hs : alookup u ss.rows = some s)
    (hbound : ∀ i, i ∈ ChunkService.getChunkIndices cs u → i < s.totalChunks)
    (hj : j < s.totalChunks) (hmiss : j ∉ ChunkService.getChunkIndices cs u) :
    ((UploadController.completeUpload cfg hx ss cs u now).2.2 =
      .error { message := "Cannot reassemble: missing chunks"
               statusCode := 400
               code := "MISSING_CHUNKS"
               missingChunks :=
                 some (ChunkService.getMissingChunks cs u s.totalChunks) }) ∧
    (ChunkService.getMissingChunks cs u s.totalChunks).Sorted (· < ·) ∧
    (∀ i, i ∈ ChunkService.getMissingChunks cs u s.totalChunks ↔
      (i < s.totalChunks ∧ i ∉ ChunkService.getChunkIndices cs u)) ∧
    alookup u (UploadController.completeUpload cfg hx ss cs u now).1.rows =
      some { s with status := UploadStatus.FAILED, updatedAt := now } := by
  have hsub : ChunkService.getChunkIndices cs u ⊆ (List.range s.totalChunks).erase j := by
    intro i hi
    have hilt := hbound i hi
    have hij : i ≠ j := fun he => hmiss (he ▸ hi)
    exact (List.mem_erase_of_ne hij).mpr (List.mem_range.mpr hilt)
  have hle := (List.subperm_of_subset (nodup_getChunkIndices cs u) hsub).length_le
  have herase : ((List.range s.totalChunks).erase j).length = s.totalChunks - 1 := by
    rw [List.length_erase_of_mem (List.mem_range.mpr hj), List.length_range]
  have hlen : (ChunkService.getChunkIndices cs u).length ≠ s.totalChunks := by omega
  have herr : ChunkService.reassembleChunks cfg cs u s.fileName s.totalChunks =
      .error { message := "Cannot reassemble: missing chunks"
               statusCode := 400
               code := "MISSING_CHUNKS"
               missingChunks :=
                 some (ChunkService.getMissingChunks cs u s.totalChunks) } := by
    unfold ChunkService.reassembleChunks
    rw [if_pos hlen]
  have hfail : alookup u (UploadService.failUpload
      (UploadService.updateUploadStatus ss u UploadStatus.ASSEMBLING none now)
      u now).rows = some { s with status := UploadStatus.FAILED, updatedAt := now } := by
    have h₁ := alookup_updateUploadStatus ss u UploadStatus.ASSEMBLING none now s hs
    have h₂ := alookup_updateUploadStatus _ u UploadStatus.FAILED none now _ h₁
    unfold UploadService.failUpload
    rw [h₂]
    rfl
  constructor
  · simp only [UploadController.completeUpload, UploadService.getUploadSession, hs, herr]
  refine ⟨sorted_getMissingChunks cs u s.totalChunks,
    fun i => mem_getMissingChunks cs u s.totalChunks i, ?_⟩
  simp only [UploadController.completeUpload, UploadService.getUploadSession, hs, herr]
  exact hfail

/-- C4 witness: the missing-chunks law applied to the concrete 3-chunk
session with chunks 0 and 2 present (missing index 1). -/
theorem complete_missing_chunks_failed_witness :
    (UploadController.completeUpload defaultConfig hxTriv
        { rows := [("u1", sess3)] } csGap "u1" 9).2.2 =
      .error { message := "Cannot reassemble: missing chunks"
               statusCode := 400
               code := "MISSING_CHUNKS"
               missingChunks :=
                 some (ChunkService.getMissingChunks csGap "u1" sess3.totalChunks) } :=
  (complete_missing_chunks_failed defaultConfig hxTriv { rows := [("u1", sess3)] }
    csGap "u1" 9 sess3 1 (by decide) (by decide) (by decide) (by decide)).1

/-! ### C5 -/

/-- C5 counterexample: a session that is both terminal (COMPLETED) and past
its expiry (expiresAt 10, call instant 99) accepts a fresh chunk: the call
returns the uploaded outcome and the chunk is stored, instead of failing
with SessionTerminal / SessionExpired as the claim requires. -/
theorem uploadChunk_terminal_expired_cex :
    ((UploadController.uploadChunk defaultConfig { rows := [("u1", sessC)] }
        emptyChunkState "u1" 0 [9] 99).2.2 =
      .ok { chunkIndex := 0, status := "uploaded", uploaded := 1, total := 2 }) ∧
    (alookup ("u1", 0) (UploadController.uploadChunk defaultConfig
        { rows := [("u1", sessC)] } emptyChunkState "u1" 0 [9]
        99).2.1.redisChunks).isSome = true := by
  exact ⟨by decide, by decide⟩

/-- C5 amended: store_chunk fails with NOT_FOUND (leaving both stores
untouched) when the session is absent; but it checks neither expiry nor
terminal status: on a session that is COMPLETED, FAILED or past its
expires_at, a fresh in-range chunk is accepted and stored
(isUploadExpired exists in the service but nothing on this path calls
it). -/
theorem uploadChunk_no_expiry_or_terminal_check (cfg : Config) (ss : SessionStore)
    (cs : ChunkState) (u : String) (i : Nat) (p : Bytes) (now : Nat) :
    (alookup u ss.rows = none →
      UploadController.uploadChunk cfg ss cs u i p now =
        (ss, cs,
         .error { message := "Upload session " ++ u ++ " not found"
                  statusCode := 404, code := "NOT_FOUND", missingChunks := none })) ∧
    (∀ s, alookup u ss.rows = some s →
      (s.status = UploadStatus.COMPLETED ∨ s.status = UploadStatus.FAILED ∨
        s.expiresAt < now) →
      i < s.totalChunks → alookup (u, i) cs.redisChunks = none →
      ((UploadController.uploadChunk cfg ss cs u i p now).2.2 =
        .ok { chunkIndex := i
              status := "uploaded"
              uploaded := ChunkService.getChunkCount
                (ChunkService.storeChunk cfg cs u i p now).1 u
              total := s.totalChunks }) ∧
      alookup (u, i)
          (UploadController.uploadChunk cfg ss cs u i p now).2.1.redisChunks =
        some { uploadId := u, chunkIndex := i, path := chunkLocalPath cfg u i
               size := p.length, uploadedAt := now }) := by
  constructor
  · intro h
    simp only [UploadController.uploadChunk, UploadService.getUploadSession, h]
  · intro s hs _hterm hidx habs
    simp only [UploadController.uploadChunk, UploadService.getUploadSession, hs]
    rw [if_neg (Nat.not_le.mpr hidx)]
    rw [storeChunk_absent cfg cs u i p now habs]
    refine ⟨rfl, ?_⟩
    exact alookup_cons_self _ _ _

/-- C5 witness: the no-expiry-no-terminal-check law at the concrete
COMPLETED, expired session. -/
theorem uploadChunk_no_expiry_or_terminal_check_witness :
    ((UploadController.uploadChunk defaultConfig { rows := [("u1", sessC)] }
        emptyChunkState "u1" 0 [9] 99).2.2 =
      .ok { chunkIndex := 0
            status := "uploaded"
            uploaded := ChunkService.getChunkCount
              (ChunkService.storeChunk defaultConfig emptyChunkState "u1" 0 [9] 99).1 "u1"
            total := sessC.totalChunks }) ∧
    alookup ("u1", 0) (UploadController.uploadChunk defaultConfig
        { rows := [("u1", sessC)] } emptyChunkState "u1" 0 [9] 99).2.1.redisChunks =
      some { uploadId := "u1", chunkIndex := 0, path := chunkLocalPath defaultConfig "u1" 0
             size := 1, uploadedAt := 99 } :=
  (uploadChunk_no_expiry_or_terminal_check defaultConfig { rows := [("u1", sessC)] }
    emptyChunkState "u1" 0 [9] 99).2 sessC (by decide) (Or.inl (by decide))
    (by decide) (by decide)

/-! ### C6 -/

/-- C6 counterexample: a payload of length 3 (the session's chunk size is
the default 1048576 and index 0 is not the last chunk) is accepted and
stored instead of being rejected with BadChunkSize. -/
theorem uploadChunk_bad_size_accepted_cex :
    ([1, 2, 3].length ≠ defaultConfig.chunkSize) ∧
    ((UploadController.uploadChunk defaultConfig { rows := [("u1", sessU)] }
        emptyChunkState "u1" 0 [1, 2, 3] 5).2.2 =
      .ok { chunkIndex := 0, status := "uploaded", uploaded := 1, total := 2 }) := by
  exact ⟨by decide, by decide⟩

/-- C6 amended: no payload-length validation exists anywhere on the chunk
upload path: for a known session and in-range fresh index, a payload of
any length whatsoever is accepted and stored, with the recorded size equal
to the payload length; no BadChunkSize failure is possible. -/
theorem uploadChunk_no_size_validation (cfg : Config) (ss : SessionStore)
    (cs : ChunkState) (u : String) (i : Nat) (p : Bytes) (now : Nat)
    (s : UploadSession) (hs : alookup u ss.rows = some s)
    (hidx : i < s.totalChunks) (habs : alookup (u, i) cs.redisChunks = none) :
    ((UploadController.uploadChunk cfg ss cs u i p now).2.2 =
      .ok { chunkIndex := i
            status := "uploaded"
            uploaded := ChunkService.getChunkCount
              (ChunkService.storeChunk cfg cs u i p now).1 u
            total := s.totalChunks }) ∧
    (ChunkService.storeChunk cfg cs u i p now).2.size = p.length := by
  constructor
  · simp only [UploadController.uploadChunk, UploadService.getUploadSession, hs]
    rw [if_neg (Nat.not_le.mpr hidx)]
    rw [storeChunk_absent cfg cs u i p now habs]
    rfl
  · rw [storeChunk_absent cfg cs u i p now habs]

/-- C6 witness: the no-size-validation law at the concrete length-3 payload
against the default 1 MiB chunk size. -/
theorem uploadChunk_no_size_validation_witness :
    ((UploadController.uploadChunk defaultConfig { rows := [("u1", sessU)] }
        emptyChunkState "u1" 0 [1, 2, 3] 5).2.2 =
      .ok { chunkIndex := 0
            status := "uploaded"
            uploaded := ChunkService.getChunkCount
              (ChunkService.storeChunk defaultConfig emptyChunkState "u1" 0
                [1, 2, 3] 5).1 "u1"
            total := sessU.totalChunks }) ∧
    (ChunkService.storeChunk defaultConfig emptyChunkState "u1" 0
      [1, 2, 3] 5).2.size = [1, 2, 3].length :=
  uploadChunk_no_size_validation defaultConfig { rows := [("u1", sessU)] }
    emptyChunkState "u1" 0 [1, 2, 3] 5 sessU (by decide) (by decide) (by decide)

/-! ### C7 -/

/-- C7 counterexample: with an expected digest that does not match the
assembled bytes, complete does fail and the session does move to FAILED,
but the error code is VALIDATION_ERROR, not DIGEST_MISMATCH (no
DIGEST_MISMATCH code exists in the source). -/
theorem complete_digest_mismatch_cex :
    ((UploadController.completeUpload defaultConfig hxTriv { rows := [("u1", sessD)] }
        csOne "u1" 9).2.2 =
      .error { message := "Validation failed", statusCode := 400
               code := "VALIDATION_ERROR", missingChunks := none }) ∧
    ("VALIDATION_ERROR" ≠ "DIGEST_MISMATCH") ∧
    alookup "u1" (UploadController.completeUpload defaultConfig hxTriv
        { rows := [("u1", sessD)] } csOne "u1" 9).1.rows =
      some { sessD with status := UploadStatus.FAILED, updatedAt := 9 } := by
  exact ⟨by decide, by decide, by decide⟩

/-- C7 amended: when an expected digest was supplied, complete compares
sha256:<hex of the assembled bytes> against it; on mismatch the call fails
with statusCode 400 and error code VALIDATION_ERROR (not DIGEST_MISMATCH,
which the code never produces) and the session transitions to FAILED. -/
theorem complete_digest_mismatch_behavior (cfg : Config) (hx : ExtHooks)
    (ss : SessionStore) (cs : ChunkState) (u : String) (now : Nat)
    (s : UploadSession) (expd : String) (cs' : ChunkState) (fp : String) (b : Bytes)
    (hs : alookup u ss.rows = some s) (hck : s.checksum = some expd)
    (hre : ChunkService.reassembleChunks cfg cs u s.fileName s.totalChunks =
      .ok (cs', fp))
    (hfile : alookup fp cs'.files = some b)
    (hmm : "sha256:" ++ hx.sha256hex b ≠ expd) :
    ((UploadController.completeUpload cfg hx ss cs u now).2.2 =
      .error { message := "Validation failed", statusCode := 400
               code := "VALIDATION_ERROR", missingChunks := none }) ∧
    alookup u (UploadController.completeUpload cfg hx ss cs u now).1.rows =
      some { s with status := UploadStatus.FAILED, updatedAt := now } := by
  have hck3 : (ValidationService.validateChecksum hx cs' fp (some expd)).errors =
      ["Checksum mismatch"] := by
    simp only [ValidationService.validateChecksum, hfile]
    rw [if_pos (show ValidationService.calculateChecksum hx b ≠ expd from hmm)]
  have herrs : (ValidationService.validateFile hx cs' fp s.fileType s.fileName
      s.fileSize cfg.maxFileSize s.checksum).errors =
      (ValidationService.validateFileType s.fileType s.fileName).errors ++
      (ValidationService.validateFileSize s.fileSize cfg.maxFileSize).errors ++
      (ValidationService.validateChecksum hx cs' fp s.checksum).errors ++
      (if strEndsWith s.fileName ".json" || strEndsWith s.fileName ".jsonl" then
         (ValidationService.validateJsonSchema hx cs' fp).errors
       else []) := by
    simp only [ValidationService.validateFile, hck]
  have hmemb : "Checksum mismatch" ∈
      (ValidationService.validateFile hx cs' fp s.fileType s.fileName
        s.fileSize cfg.maxFileSize s.checksum).errors := by
    rw [herrs]
    apply List.mem_append.mpr
    apply Or.inl
    apply List.mem_append.mpr
    apply Or.inr
    rw [hck, hck3]
    exact List.mem_singleton.mpr rfl
  have hproj : (ValidationService.validateFile hx cs' fp s.fileType s.fileName
      s.fileSize cfg.maxFileSize s.checksum).isValid =
      (ValidationService.validateFile hx cs' fp s.fileType s.fileName
        s.fileSize cfg.maxFileSize s.checksum).errors.isEmpty := rfl
  have hvf : (ValidationService.validateFile hx cs' fp s.fileType s.fileName
      s.fileSize cfg.maxFileSize s.checksum).isValid = false := by
    have hne := List.ne_nil_of_mem hmemb
    rw [hproj]
    cases hE : (ValidationService.validateFile hx cs' fp s.fileType s.fileName
        s.fileSize cfg.maxFileSize s.checksum).errors with
    | nil => exact absurd hE hne
    | cons a l => rfl
  have hfail : alookup u (UploadService.failUpload
      (UploadService.updateUploadStatus ss u UploadStatus.ASSEMBLING none now)
      u now).rows = some { s with status := UploadStatus.FAILED, updatedAt := now } := by
    have h₁ := alookup_updateUploadStatus ss u UploadStatus.ASSEMBLING none now s hs
    have h₂ := alookup_updateUploadStatus _ u UploadStatus.FAILED none now _ h₁
    unfold UploadService.failUpload
    rw [h₂]
    rfl
  constructor
  · simp only [UploadController.completeUpload, UploadService.getUploadSession, hs, hre]
    rw [if_neg (by rw [hvf]; exact Bool.false_ne_true)]
  · simp only [UploadController.completeUpload, UploadService.getUploadSession, hs, hre]
    rw [if_neg (by rw [hvf]; exact Bool.false_ne_true)]
    exact hfail

/-- C7 witness: the digest-mismatch law at the concrete one-chunk session
whose expected digest sha256:feed cannot match the hook output sha256:aaa. -/
theorem complete_digest_mismatch_behavior_witness :
    ((UploadController.completeUpload defaultConfig hxTriv { rows := [("u1", sessD)] }
        csOne "u1" 9).2.2 =
      .error { message := "Validation failed", statusCode := 400
               code := "VALIDATION_ERROR", missingChunks := none }) ∧
    alookup "u1" (UploadController.completeUpload defaultConfig hxTriv
        { rows := [("u1", sessD)] } csOne "u1" 9).1.rows =
      some { sessD with status := UploadStatus.FAILED, updatedAt := 9 } :=
  complete_digest_mismatch_behavior defaultConfig hxTriv { rows := [("u1", sessD)] }
    csOne "u1" 9 sessD "sha256:feed"
    { csOne with files := ("./uploads/final/u1/a.bin", [7]) :: csOne.files }
    "./uploads/final/u1/a.bin" [7]
    (by decide) (by decide) (by decide) (by decide) (by decide)

/-! ### C8 -/

/-- C8 counterexample: a session still in INIT whose chunk 0 is already
present: the call reports already_uploaded and writes nothing to the chunk
stores, but the session does not stay in INIT — the controller requests the
INIT to UPLOADING transition regardless of the AlreadyPresent outcome. -/
theorem uploadChunk_alreadyPresent_transition_cex :
    ((UploadController.uploadChunk defaultConfig { rows := [("u1", sessI)] }
        csOne "u1" 0 [7] 50).2.2 =
      .ok { chunkIndex := 0, status := "already_uploaded", uploaded := 1, total := 2 }) ∧
    ((UploadController.uploadChunk defaultConfig { rows := [("u1", sessI)] }
        csOne "u1" 0 [7] 50).2.1 = csOne) ∧
    alookup "u1" (UploadController.uploadChunk defaultConfig { rows := [("u1", sessI)] }
        csOne "u1" 0 [7] 50).1.rows =
      some { sessI with status := UploadStatus.UPLOADING, updatedAt := 50 } := by
  exact ⟨by decide, by decide, by decide⟩

/-- C8 amended: on an already-present chunk, store_chunk returns
AlreadyPresent carrying the recorded size and performs no writes (the
chunk state is returned unchanged); but the controller requests the
INIT to UPLOADING transition whenever the session was loaded in INIT,
regardless of the Stored / AlreadyPresent outcome, so a session in INIT
moves to UPLOADING even when nothing was stored. -/
theorem uploadChunk_alreadyPresent_behavior (cfg : Config) (ss : SessionStore)
    (cs : ChunkState) (u : String) (i : Nat) (p : Bytes) (now : Nat)
    (s : UploadSession) (md : ChunkMetadata)
    (hs : alookup u ss.rows = some s) (hst : s.status = UploadStatus.INIT)
    (hidx : i < s.totalChunks) (hmd : alookup (u, i) cs.redisChunks = some md) :
    (ChunkService.storeChunk cfg cs u i p now =
      (cs, { alreadyExists := true, size := md.size })) ∧
    ((UploadController.uploadChunk cfg ss cs u i p now).2.1 = cs) ∧
    ((UploadController.uploadChunk cfg ss cs u i p now).2.2 =
      .ok { chunkIndex := i, status := "already_uploaded"
            uploaded := ChunkService.getChunkCount cs u, total := s.totalChunks }) ∧
    alookup u (UploadController.uploadChunk cfg ss cs u i p now).1.rows =
      some { s with status := UploadStatus.UPLOADING, updatedAt := now } := by
  have hsc := storeChunk_present cfg cs u i p now md hmd
  refine ⟨hsc, ?_, ?_, ?_⟩
  · simp only [UploadController.uploadChunk, UploadService.getUploadSession, hs]
    rw [if_neg (Nat.not_le.mpr hidx), hsc]
  · simp only [UploadController.uploadChunk, UploadService.getUploadSession, hs]
    rw [if_neg (Nat.not_le.mpr hidx), hsc]
    rfl
  · simp only [UploadController.uploadChunk, UploadService.getUploadSession, hs]
    rw [if_neg (Nat.not_le.mpr hidx), hsc]
    rw [if_pos hst]
    have h₁ := alookup_updateUploadStatus ss u UploadStatus.UPLOADING none now s hs
    rw [h₁]
    rfl

/-- C8 witness: the AlreadyPresent law at the concrete INIT session with
chunk 0 already recorded. -/
theorem uploadChunk_alreadyPresent_behavior_witness :
    (ChunkService.storeChunk defaultConfig csOne "u1" 0 [7] 50 =
      (csOne, { alreadyExists := true, size := 1 })) ∧
    alookup "u1" (UploadController.uploadChunk defaultConfig { rows := [("u1", sessI)] }
        csOne "u1" 0 [7] 50).1.rows =
      some { sessI with status := UploadStatus.UPLOADING, updatedAt := 50 } :=
  ⟨(uploadChunk_alreadyPresent_behavior defaultConfig { rows := [("u1", sessI)] }
      csOne "u1" 0 [7] 50 sessI
      { uploadId := "u1", chunkIndex := 0, path := chunkLocalPath defaultConfig "u1" 0
        size := 1, uploadedAt := 0 }
      (by decide) (by decide) (by decide) (by decide)).1,
   (uploadChunk_alreadyPresent_behavior defaultConfig { rows := [("u1", sessI)] }
      csOne "u1" 0 [7] 50 sessI
      { uploadId := "u1", chunkIndex := 0, path := chunkLocalPath defaultConfig "u1" 0
        size := 1, uploadedAt := 0 }
      (by decide) (by decide) (by decide) (by decide)).2.2.2⟩

/-! ### C9 -/

/-- C9 counterexample: the object-store key produced for the final file of
session s1 with file name f.bin is datasets/s1/s1_f.bin, not the
final/s1/s1_f.bin key the claim names. -/
theorem getFinalFilePath_cex :
    getFinalFilePath "s1" "f.bin" = "datasets/s1/s1_f.bin" ∧
    getFinalFilePath "s1" "f.bin" ≠ "final/s1/s1_f.bin" := by
  exact ⟨by decide, by decide⟩

/-- C9 amended: the S3 object key for the assembled file is
datasets/session_id/session_id_fileName (the datasets/ namespace, not
final/), and the path a successful reassembly returns is the local
finalDir/session_id/fileName file path, not an object-store key. -/
theorem getFinalFilePath_shape (uploadId fileName : String) :
    (getFinalFilePath uploadId fileName =
      "datasets/" ++ uploadId ++ "/" ++ uploadId ++ "_" ++ fileName) ∧
    (∀ (cfg : Config) (st stF : ChunkState) (total : Nat) (fp : String),
      ChunkService.reassembleChunks cfg st uploadId fileName total = .ok (stF, fp) →
      fp = pathJoin (pathJoin cfg.finalDir uploadId) fileName) := by
  refine ⟨rfl, ?_⟩
  intro cfg st stF total fp h
  unfold ChunkService.reassembleChunks at h
  by_cases hc : (ChunkService.getChunkIndices st uploadId).length ≠ total
  · rw [if_pos hc] at h
    cases h
  · rw [if_neg hc] at h
    cases hr : ChunkService.readChunks st uploadId total with
    | error e => rw [hr] at h; cases h
    | ok buf =>
        rw [hr] at h
        simp only [Except.ok.injEq, Prod.mk.injEq] at h
        exact h.2.symm

/-- C9 witness: the returned-path law at a concrete successful reassembly
of the one-chunk state. -/
theorem getFinalFilePath_shape_witness :
    "./uploads/final/u1/a.bin" =
      pathJoin (pathJoin defaultConfig.finalDir "u1") "a.bin" :=
  (getFinalFilePath_shape "u1" "a.bin").2 defaultConfig csOne
    { csOne with files := ("./uploads/final/u1/a.bin", [7]) :: csOne.files }
    1 "./uploads/final/u1/a.bin" (by decide)

/-! ### C10 -/

/-- C10: nothing on the completion path consults expires_at. For a session
in UPLOADING whose chunks all reassemble and whose assembled file passes
validation, complete succeeds and records COMPLETED with the final path
even at an instant strictly past the session's expires_at. -/
theorem complete_ignores_expiry (cfg : Config) (hx : ExtHooks) (ss : SessionStore)
    (cs : ChunkState) (u : String) (now : Nat) (s : UploadSession)
    (cs' : ChunkState) (fp : String)
    (hs : alookup u ss.rows = some s) (hst : s.status = UploadStatus.UPLOADING)
    (hexp : s.expiresAt < now)
    (hre : ChunkService.reassembleChunks cfg cs u s.fileName s.totalChunks =
      .ok (cs', fp))
    (hval : (ValidationService.validateFile hx cs' fp s.fileType s.fileName
      s.fileSize cfg.maxFileSize s.checksum).isValid = true) :
    ((UploadController.completeUpload cfg hx ss cs u now).2.2 =
      .ok { uploadId := u, status := "completed", filePath := fp }) ∧
    alookup u (UploadController.completeUpload cfg hx ss cs u now).1.rows =
      some { s with status := UploadStatus.COMPLETED, updatedAt := now
                    filePath := some fp } := by
  constructor
  · simp only [UploadController.completeUpload, UploadService.getUploadSession, hs, hre]
    rw [if_pos hval]
  · simp only [UploadController.completeUpload, UploadService.getUploadSession, hs, hre]
    rw [if_pos hval]
    have h₁ := alookup_updateUploadStatus ss u UploadStatus.ASSEMBLING none now s hs
    have h₂ := alookup_updateUploadStatus _ u UploadStatus.COMPLETED (some fp) now _ h₁
    unfold UploadService.completeUpload
    rw [h₂]
    rfl

/-- C10 witness: a concrete expired 1-chunk UPLOADING session (expiresAt
10, call instant 99) completes successfully. -/
theorem complete_ignores_expiry_witness :
    ((UploadController.completeUpload defaultConfig hxTriv { rows := [("u1", sessE)] }
        csOne "u1" 99).2.2 =
      .ok { uploadId := "u1", status := "completed"
            filePath := "./uploads/final/u1/a.bin" }) ∧
    alookup "u1" (UploadController.completeUpload defaultConfig hxTriv
        { rows := [("u1", sessE)] } csOne "u1" 99).1.rows =
      some { sessE with status := UploadStatus.COMPLETED, updatedAt := 99
                        filePath := some "./uploads/final/u1/a.bin" } :=
  complete_ignores_expiry defaultConfig hxTriv { rows := [("u1", sessE)] } csOne "u1"
    99 sessE { csOne with files := ("./uploads/final/u1/a.bin", [7]) :: csOne.files }
    "./uploads/final/u1/a.bin"
    (by decide) (by decide) (by decide) (by decide) (by decide)
